import Mathlib

/-!
# Verification of the resource resolution and dispatch engine

A shallow embedding in Lean 4 of the core of a small configuration-driven
HTTP content server (sources: `resources.py` and `main.py`).  Python strings
are modelled as lists of characters (Python `str` is a sequence of code
points), byte strings as lists of naturals `< 256`, and the filesystem as an
association list from paths to file contents.  Fallible operations return
`Except`.  Case mapping is modelled on the ASCII range, which covers every
string the dispatch logic compares (URL tokens are lowercase hexadecimal,
the index literals are ASCII).
-/

/-- Python strings are sequences of code points. -/
abbrev Str := List Char

/-- Shorthand to turn a Lean string literal into the `Str` model. -/
def str (s : String) : Str := s.toList

/-- Whitespace test used by Python `str.split()` with no separator
(ASCII whitespace: space, tab, newline, vertical tab, form feed,
carriage return). -/
def isPySpace (c : Char) : Bool :=
  c.toNat = 32 || c.toNat = 9 || c.toNat = 10 || c.toNat = 11 || c.toNat = 13 || c.toNat = 12

/-- `str.split()` with no separator: split on runs of whitespace, dropping
empty words.  `acc` holds the (reversed) word currently being read. -/
def pySplitWsAux : Str → Str → List Str
  | [], acc => if acc = [] then [] else [acc.reverse]
  | c :: cs, acc =>
      if isPySpace c then
        if acc = [] then pySplitWsAux cs [] else acc.reverse :: pySplitWsAux cs []
      else pySplitWsAux cs (c :: acc)

/-- Python `s.split()` (whitespace split, no empty words). -/
def pySplitWs (s : Str) : List Str := pySplitWsAux s []

/-- Python `"".join(words)` (polymorphic so it also concatenates byte lists). -/
def joinWords : List (List α) → List α
  | [] => []
  | w :: ws => w ++ joinWords ws

/-- UTF-8 encoding of a single code point. -/
def utf8Char (c : Char) : List Nat :=
  let n := c.toNat
  if n < 128 then [n]
  else if n < 2048 then [192 + n / 64, 128 + n % 64]
  else if n < 65536 then [224 + n / 4096, 128 + (n / 64) % 64, 128 + n % 64]
  else [240 + n / 262144, 128 + (n / 4096) % 64, 128 + (n / 64) % 64, 128 + n % 64]

/-- UTF-8 encoding of a string (Python `s.encode("utf-8")`). -/
def utf8Encode : Str → List Nat
  | [] => []
  | c :: cs => utf8Char c ++ utf8Encode cs

/- ## 32-bit arithmetic helpers (words are `Nat`s reduced mod 2^32) -/

def pow32 : Nat := 4294967296

def mask32 : Nat := 4294967295

/-- Left rotation of a 32-bit word. -/
def rotl32 (n x : Nat) : Nat := ((x <<< n) ||| (x >>> (32 - n))) &&& mask32

/-- Right rotation of a 32-bit word. -/
def rotr32 (n x : Nat) : Nat := ((x >>> n) ||| (x <<< (32 - n))) &&& mask32

/-- Big-endian 4-byte encoding of a 32-bit word. -/
def wordBytes (w : Nat) : List Nat :=
  [w / 16777216 % 256, w / 65536 % 256, w / 256 % 256, w % 256]

/-- Big-endian 8-byte encoding of a 64-bit length field. -/
def beBytes8 (n : Nat) : List Nat :=
  [n / 72057594037927936 % 256, n / 281474976710656 % 256,
   n / 1099511627776 % 256, n / 4294967296 % 256,
   n / 16777216 % 256, n / 65536 % 256, n / 256 % 256, n % 256]

/-- Group a byte sequence into big-endian 32-bit words. -/
def bytesToWords : List Nat → List Nat
  | a :: b :: c :: d :: rest => (((a * 256 + b) * 256 + c) * 256 + d) :: bytesToWords rest
  | _ => []

/-- Split a byte sequence into 64-byte blocks; `fuel` bounds the recursion
depth and is at least the list length at every call from `toChunks`. -/
def toChunksFuel : Nat → List Nat → List (List Nat)
  | _, [] => []
  | 0, l => [l]
  | fuel + 1, l => l.take 64 :: toChunksFuel fuel (l.drop 64)

/-- Split a byte sequence into 64-byte blocks. -/
def toChunks (l : List Nat) : List (List Nat) := toChunksFuel l.length l

/-- Merkle-Damgard padding shared by SHA-1 and SHA-256: append `0x80`, zeros
up to 56 mod 64, then the bit length as 8 big-endian bytes. -/
def shaPad (msg : List Nat) : List Nat :=
  msg ++ 128 :: List.replicate ((119 - msg.length % 64) % 64) 0 ++ beBytes8 (msg.length * 8)

/- ## SHA-1 (hashlib.sha1) -/

/-- One step of the SHA-1 message-schedule extension: append
`rotl1 (w[n-3] xor w[n-8] xor w[n-14] xor w[n-16])`. -/
def sha1ExtendStep (acc : List Nat) : List Nat :=
  let n := acc.length
  acc ++ [rotl32 1 ((acc.getD (n - 3) 0) ^^^ (acc.getD (n - 8) 0) ^^^
                    (acc.getD (n - 14) 0) ^^^ (acc.getD (n - 16) 0))]

/-- Extend 16 schedule words to 80. -/
def sha1Extend (ws : List Nat) : List Nat :=
  (List.range 64).foldl (fun a _ => sha1ExtendStep a) ws

/-- One SHA-1 round; `i` is the round index, `w` the schedule word. -/
def sha1Round (st : Nat × Nat × Nat × Nat × Nat) (i w : Nat) :
    Nat × Nat × Nat × Nat × Nat :=
  let (a, b, c, d, e) := st
  let f := if i < 20 then (b &&& c) ||| ((mask32 ^^^ b) &&& d)
           else if i < 40 then b ^^^ c ^^^ d
           else if i < 60 then (b &&& c) ||| (b &&& d) ||| (c &&& d)
           else b ^^^ c ^^^ d
  let k := if i < 20 then 1518500249
           else if i < 40 then 1859775393
           else if i < 60 then 2400959708
           else 3395469782
  let temp := (rotl32 5 a + f + e + k + w) % pow32
  (temp, a, rotl32 30 b, c, d)

/-- Compress one 64-byte chunk into the running SHA-1 state. -/
def sha1Compress (h : Nat × Nat × Nat × Nat × Nat) (chunk : List Nat) :
    Nat × Nat × Nat × Nat × Nat :=
  let ws := sha1Extend (bytesToWords chunk)
  let (h0, h1, h2, h3, h4) := h
  let (a, b, c, d, e) :=
    (List.enum ws).foldl (fun st iw => sha1Round st iw.1 iw.2) (h0, h1, h2, h3, h4)
  ((h0 + a) % pow32, (h1 + b) % pow32, (h2 + c) % pow32, (h3 + d) % pow32, (h4 + e) % pow32)

/-- SHA-1 digest (20 bytes) of a byte sequence. -/
def sha1 (msg : List Nat) : List Nat :=
  let (h0, h1, h2, h3, h4) :=
    (toChunks (shaPad msg)).foldl sha1Compress
      (1732584193, 4023233417, 2562383102, 271733878, 3285377520)
  wordBytes h0 ++ wordBytes h1 ++ wordBytes h2 ++ wordBytes h3 ++ wordBytes h4

/- ## SHA-256 (hashlib.sha256) -/

/-- SHA-256 round constants. -/
def sha256K : List Nat :=
  [1116352408, 1899447441, 3049323471, 3921009573, 961987163, 1508970993,
   2453635748, 2870763221, 3624381080, 310598401, 607225278, 1426881987,
   1925078388, 2162078206, 2614888103, 3248222580, 3835390401, 4022224774,
   264347078, 604807628, 770255983, 1249150122, 1555081692, 1996064986,
   2554220882, 2821834349, 2952996808, 3210313671, 3336571891, 3584528711,
   113926993, 338241895, 666307205, 773529912, 1294757372, 1396182291,
   1695183700, 1986661051, 2177026350, 2456956037, 2730485921, 2820302411,
   3259730800, 3345764771, 3516065817, 3600352804, 4094571909, 275423344,
   430227734, 506948616, 659060556, 883997877, 958139571, 1322822218,
   1537002063, 1747873779, 1955562222, 2024104815, 2227730452, 2361852424,
   2428436474, 2756734187, 3204031479, 3329325298]

/-- One step of the SHA-256 message-schedule extension. -/
def sha256ExtendStep (acc : List Nat) : List Nat :=
  let n := acc.length
  let w15 := acc.getD (n - 15) 0
  let w2 := acc.getD (n - 2) 0
  let s0 := (rotr32 7 w15) ^^^ (rotr32 18 w15) ^^^ (w15 >>> 3)
  let s1 := (rotr32 17 w2) ^^^ (rotr32 19 w2) ^^^ (w2 >>> 10)
  acc ++ [(acc.getD (n - 16) 0 + s0 + acc.getD (n - 7) 0 + s1) % pow32]

/-- Extend 16 schedule words to 64. -/
def sha256Extend (ws : List Nat) : List Nat :=
  (List.range 48).foldl (fun a _ => sha256ExtendStep a) ws

/-- One SHA-256 round; `kw` pairs the round constant with the schedule word. -/
def sha256Round (st : List Nat) (kw : Nat × Nat) : List Nat :=
  match st with
  | [a, b, c, d, e, f, g, h] =>
    let s1 := (rotr32 6 e) ^^^ (rotr32 11 e) ^^^ (rotr32 25 e)
    let ch := (e &&& f) ^^^ ((mask32 ^^^ e) &&& g)
    let temp1 := (h + s1 + ch + kw.1 + kw.2) % pow32
    let s0 := (rotr32 2 a) ^^^ (rotr32 13 a) ^^^ (rotr32 22 a)
    let maj := (a &&& b) ^^^ (a &&& c) ^^^ (b &&& c)
    let temp2 := (s0 + maj) % pow32
    [(temp1 + temp2) % pow32, a, b, c, (d + temp1) % pow32, e, f, g]
  | other => other

/-- Compress one 64-byte chunk into the running SHA-256 state. -/
def sha256Compress (hs : List Nat) (chunk : List Nat) : List Nat :=
  let ws := sha256Extend (bytesToWords chunk)
  let out := (sha256K.zip ws).foldl sha256Round hs
  (hs.zip out).map (fun p => (p.1 + p.2) % pow32)

/-- SHA-256 digest (32 bytes) of a byte sequence. -/
def sha256 (msg : List Nat) : List Nat :=
  let hs := (toChunks (shaPad msg)).foldl sha256Compress
    [1779033703, 3144134277, 1013904242, 2773480762,
     1359893119, 2600822924, 528734635, 1541459225]
  joinWords (hs.map wordBytes)

/- ## Lowercase hexadecimal rendering (hexdigest) -/

/-- The sixteen lowercase hexadecimal digit characters. -/
def hexTable : Str := str "0123456789abcdef"

/-- Hexadecimal digit character for `n % 16`. -/
def hexDigitChar (n : Nat) : Char := hexTable.getD (n % 16) '0'

/-- Two lowercase hex characters for one byte. -/
def byteToHexPair (b : Nat) : Str := [hexDigitChar (b / 16), hexDigitChar b]

/-- Lowercase hexadecimal rendering of a byte sequence
(Python `hashlib...hexdigest()`). -/
def bytesToHex : List Nat → Str
  | [] => []
  | b :: bs => byteToHexPair b ++ bytesToHex bs

/- ## Python `posixpath.normpath` (os.path.normpath on POSIX) -/

/-- Boolean "starts with" on character lists. -/
def startsWithB : Str → Str → Bool
  | [], _ => true
  | _ :: _, [] => false
  | c :: cs, d :: ds => c == d && startsWithB cs ds

/-- Python `path.split("/")`. -/
def splitOnSlash : Str → List Str
  | [] => [[]]
  | c :: cs =>
    if c = '/' then [] :: splitOnSlash cs
    else
      match splitOnSlash cs with
      | [] => [[c]]
      | w :: ws => (c :: w) :: ws

/-- Python `"/".join(words)`. -/
def joinSlash : List Str → Str
  | [] => []
  | [w] => w
  | w :: ws => w ++ '/' :: joinSlash ws

/-- The number of leading slashes normpath preserves (POSIX keeps a double
slash, collapses one or three-or-more to one). -/
def initialSlashes (p : Str) : Nat :=
  if startsWithB (str "/") p then
    if startsWithB (str "//") p && !(startsWithB (str "///") p) then 2 else 1
  else 0

/-- The component-filtering loop of `posixpath.normpath`: drop empty and `.`
components, append others, let `..` pop a previous component unless it must
be preserved. -/
def normCompsStep (isl : Nat) (acc : List Str) (comp : Str) : List Str :=
  if comp = [] ∨ comp = ['.'] then acc
  else if comp ≠ ['.', '.'] ∨ (isl = 0 ∧ acc = []) ∨
          (acc ≠ [] ∧ acc.getLast? = some ['.', '.']) then acc ++ [comp]
  else if acc ≠ [] then acc.dropLast
  else acc

/-- Reassembly step of `posixpath.normpath`. -/
def normpathCore (isl : Nat) (comps : List Str) : Str :=
  let res := List.replicate isl '/' ++ joinSlash (comps.foldl (normCompsStep isl) [])
  if res = [] then ['.'] else res

/-- Python `os.path.normpath` (POSIX flavour), as used by `FileData.__init__`
and `ResourceProvider.get_file`. -/
def normpath (p : Str) : Str :=
  if p = [] then ['.']
  else normpathCore (initialSlashes p) (splitOnSlash p)

/- ## Data model (resources.py) -/

/-- `ResourceData.__init__` URL derivation: the SHA-1 hex digest of the
whitespace-stripped, lower-cased name, UTF-8 encoded
(`hashlib.sha1("".join(name.lower().split()).encode()).hexdigest()`). -/
def deriveUrl (name : Str) : Str :=
  bytesToHex (sha1 (utf8Encode (joinWords (pySplitWs (name.map Char.toLower)))))

/-- `PageData`: a dynamically rendered page (name, derived url, corridor,
room, schedule rows). -/
structure PageData where
  name : Str
  url : Str
  corridor : Str
  room : Str
  times : List (Str × Str)
deriving DecidableEq, Repr

/-- `FileData`: a downloadable file (name, derived url, normalized path). -/
structure FileData where
  name : Str
  url : Str
  path : Str
deriving DecidableEq, Repr

/-- The filesystem visible to the server: an association list from paths to
file contents (bytes). -/
abbrev FS := List (Str × List Nat)

/-- `os.path.exists` / `open`: look a path up in the filesystem.  Paths
that normalize identically denote the same file, as they do on a real
filesystem (`FileData` checks the raw configured path but stores and later
opens its normalized form). -/
def lookupFS (fs : FS) (p : Str) : Option (List Nat) :=
  (fs.find? (fun e => normpath e.1 == normpath p)).map (fun e => e.2)

/-- Python `os.stat` result.  Only `st_size` is modelled; the field of
interest here is that the value is a structure, not an integer. -/
structure StatResult where
  st_size : Nat
deriving DecidableEq, Repr

/-- The value stored in `ResourceAccess.length`.  Python is dynamically
typed: `from_html` stores an `int` while `from_file` stores a whole
`os.stat_result`, so the model is a sum of the two. -/
inductive PyLen where
  | ofNat (n : Nat)
  | ofStat (s : StatResult)
deriving DecidableEq, Repr

/-- The byte source wrapped by a `ResourceAccess`: an in-memory buffer
(`io.BytesIO`) or an open file handle with its contents. -/
inductive StreamSrc where
  | mem (bytes : List Nat)
  | file (path : Str) (contents : List Nat)
deriving DecidableEq, Repr

/-- The bytes a full `stream.read()` returns. -/
def streamBytes : StreamSrc → List Nat
  | .mem bs => bs
  | .file _ bs => bs

/-- `ResourceAccess`: uniform interface to generated pages and files. -/
structure ResourceAccess where
  name : Str
  length : PyLen
  stream : StreamSrc
deriving DecidableEq, Repr

/-- `ResourceAccess.from_html(name, html)`:
`cls(name, len(html), io.BytesIO(html.encode("utf-8")))`.  Note the length
is `len(html)` — the number of code points, not of encoded bytes. -/
def ResourceAccess.from_html (name html : Str) : ResourceAccess :=
  ⟨name, PyLen.ofNat html.length, StreamSrc.mem (utf8Encode html)⟩

/-- Errors raised while opening a file at request time. -/
inductive StreamErr where
  | fileNotFound (path : Str)
deriving DecidableEq, Repr

/-- `ResourceAccess.from_file(name, path)`:
`cls(name, os.stat(path), open(path, "rb"))`.  Note the length field holds
the whole `os.stat(path)` result, not its `st_size`. -/
def ResourceAccess.from_file (fs : FS) (name path : Str) :
    Except StreamErr ResourceAccess :=
  match lookupFS fs path with
  | none => .error (StreamErr.fileNotFound path)
  | some bs => .ok ⟨name, PyLen.ofStat ⟨bs.length⟩, StreamSrc.file path bs⟩

/- ## ResourceProvider (resources.py) -/

/-- The catalog: pages, files, the credential table (kept as the
configuration's name/hash pairs; dictionary lookup takes the last binding,
matching Python dict-comprehension overwrite) and the realm. -/
structure ResourceProvider where
  pages : List PageData
  files : List FileData
  users : List (Str × Str)
  realm : Str
deriving DecidableEq, Repr

/-- Lookup in the dict built by `__json_user_to_dict`: the last pair wins. -/
def dictGet? (pairs : List (Str × Str)) (k : Str) : Option Str :=
  (pairs.reverse.find? (fun pr => pr.1 == k)).map (fun pr => pr.2)

/-- The `style` local of `ResourceProvider.__draw_header` (the CSS braces
are text). -/
def style_css : Str :=
  str "body\x7bmargin:44px;auto;max-width:650px;line-height:1.8;font-size:16px;color:#444;padding:0;10px\x7dh1\x7bline-height:1.5\x7d"

/-- `ResourceProvider.__draw_header`. -/
def draw_header (title : Str) : Str :=
  str "<html><head><title>" ++ title ++ str "</title><style type=\"text/css\">" ++
  style_css ++ str "</style></head><body><h1>" ++ title ++ str "</h1>"

/-- `ResourceProvider.__draw_footer`. -/
def draw_footer : Str := str "</body></html>"

/-- `ResourceProvider.__draw_index`, over the `(url, name)` projections of
the catalog entries it iterates. -/
def draw_index (title : Str) (data : List (Str × Str)) : Str :=
  data.foldl
    (fun body d => body ++ str "<p><a href=\"" ++ d.1 ++ str "\">" ++ d.2 ++ str "</a></p>")
    (str "<p>" ++ title ++ str "</p>")

/-- `ResourceProvider.__draw_page`. -/
def draw_page (page : PageData) : Str :=
  (page.times.foldl
    (fun body seg => body ++ str "<tr><td>" ++ seg.1 ++ str "</td><td>" ++ seg.2 ++ str "</td>")
    (str "<p>Corridoio " ++ page.corridor ++ str " stanza " ++ page.room ++
     str "</p><table border=\"2\"><tr><th>Dalle</th><th>Alle</th>")) ++ str "</table>"

/-- The HTML of the generated index page. -/
def index_html (rp : ResourceProvider) : Str :=
  draw_header (str "Servizi ospedalieri") ++
  draw_index (str "Servizi") (rp.pages.map (fun p => (p.url, p.name))) ++ str "<br/>" ++
  draw_index (str "Documenti") (rp.files.map (fun f => (f.url, f.name))) ++ draw_footer

/-- `ResourceProvider.get_index`. -/
def get_index (rp : ResourceProvider) : ResourceAccess :=
  ResourceAccess.from_html (str "Ospedale") (index_html rp)

/-- The HTML of one dynamic page. -/
def page_html (p : PageData) : Str := draw_header p.name ++ draw_page p ++ draw_footer

/-- The resource `get_page` builds for a matching page. -/
def page_resource (p : PageData) : ResourceAccess :=
  ResourceAccess.from_html p.name (page_html p)

/-- `ResourceProvider.get_page`: first page whose url equals the argument. -/
def get_page (rp : ResourceProvider) (url : Str) : Option ResourceAccess :=
  (rp.pages.find? (fun p => p.url == url)).map page_resource

/-- The HTML of the not-found page: `"'{0}' non trovato".format(url)`
wrapped in the header/footer. -/
def error_html (url : Str) : Str :=
  draw_header ('\'' :: url ++ str "' non trovato") ++ draw_footer

/-- `ResourceProvider.get_error`. -/
def get_error (_rp : ResourceProvider) (url : Str) : ResourceAccess :=
  ResourceAccess.from_html (str "Pagina sconosciuta") (error_html url)

/-- `ResourceProvider.get_file`: normalize the url, return the first file
with that token, opened from its stored path. -/
def get_file (rp : ResourceProvider) (fs : FS) (url : Str) :
    Except StreamErr (Option ResourceAccess) :=
  match rp.files.find? (fun f => f.url == normpath url) with
  | none => .ok none
  | some f => (ResourceAccess.from_file fs f.name f.path).map some

/-- `ResourceProvider.get_authentication_realm`. -/
def get_authentication_realm (rp : ResourceProvider) : Str := rp.realm

/-- `ResourceProvider.is_user_authenticated`. -/
def is_user_authenticated (rp : ResourceProvider) (name passwd_sha : Str) : Bool :=
  match dictGet? rp.users name with
  | some h => h == passwd_sha
  | none => false

/- ## Dispatch engine (main.py, RequestHandler) -/

/-- `RequestHandler.__path_is_index` (applied by its caller to the
lower-cased request path). -/
def path_is_index (p : Str) : Bool :=
  p == str "/" || p == str "/index.html" || p == str "/index.htm"

/-- One dispatch outcome: status code, resource, content type, disposition. -/
abbrev DispatchResult := Nat × ResourceAccess × Str × Str

/-- `RequestHandler.__try_get_html`: index check and page lookup, both on
the lower-cased request path (`self.path.lower()`). -/
def try_get_html (rp : ResourceProvider) (path : Str) : Option DispatchResult :=
  let lpath := path.map Char.toLower
  if path_is_index lpath then some (200, get_index rp, str "text/html", str "inline")
  else (get_page rp (lpath.drop 1)).map (fun r => (200, r, str "text/html", str "inline"))

/-- `RequestHandler.__try_get_file`: file lookup on `"." + path` with the
request path's original casing. -/
def try_get_file (rp : ResourceProvider) (fs : FS) (path : Str) :
    Except StreamErr (Option DispatchResult) :=
  (get_file rp fs ('.' :: path)).map
    (Option.map (fun r => (200, r, str "application/octet-stream", str "attachment")))

/-- `RequestHandler.__get_not_found`. -/
def get_not_found (rp : ResourceProvider) (path : Str) : DispatchResult :=
  (404, get_error rp path, str "text/html", str "inline")

/-- `RequestHandler.__dispatch`: index/page, then file, then not-found. -/
def dispatch (rp : ResourceProvider) (fs : FS) (path : Str) :
    Except StreamErr DispatchResult :=
  match try_get_html rp path with
  | some h => .ok h
  | none =>
    match try_get_file rp fs path with
    | .ok (some f) => .ok f
    | .ok none => .ok (get_not_found rp path)
    | .error e => .error e

/-- The password-hashing step of `RequestHandler.__client_is_authenticated`
composed with the catalog lookup: hash the supplied raw password with
SHA-256 and compare against the stored hash for the claimed username. -/
def authenticate (rp : ResourceProvider) (username rawPassword : Str) : Bool :=
  is_user_authenticated rp username (bytesToHex (sha256 (utf8Encode rawPassword)))

/- ## Catalog construction (ResourceProvider.__init__) -/

/-- A page descriptor as it appears in the configuration document (the
`times` dictionaries already converted to pairs, as `__times_convert`
does). -/
structure PageCfg where
  name : Str
  corridor : Str
  room : Str
  times : List (Str × Str)
deriving DecidableEq, Repr

/-- A file descriptor as it appears in the configuration document. -/
structure FileCfg where
  name : Str
  path : Str
deriving DecidableEq, Repr

/-- A user descriptor as it appears in the configuration document. -/
structure UserCfg where
  name : Str
  passwd_sha : Str
deriving DecidableEq, Repr

/-- The parsed configuration document. -/
structure Config where
  pages : List PageCfg
  files : List FileCfg
  realm : Str
  users : List UserCfg
deriving DecidableEq, Repr

/-- Startup-fatal configuration errors. -/
inductive ConfigErr where
  | missingFile (path : Str)
deriving DecidableEq, Repr

/-- `PageData` construction from a page descriptor
(`__json_page_to_data`). -/
def mkPageData (c : PageCfg) : PageData :=
  ⟨c.name, deriveUrl c.name, c.corridor, c.room, c.times⟩

/-- `FileData.__init__`: raise unless the path exists, then store the
derived url and the normalized path. -/
def mkFileData (fs : FS) (c : FileCfg) : Except ConfigErr FileData :=
  match lookupFS fs c.path with
  | none => .error (ConfigErr.missingFile c.path)
  | some _ => .ok ⟨c.name, deriveUrl c.name, normpath c.path⟩

/-- The file list comprehension of `ResourceProvider.__init__`: entries are
built in order and the first missing path raises. -/
def buildFiles (fs : FS) : List FileCfg → Except ConfigErr (List FileData)
  | [] => .ok []
  | c :: cs =>
    match mkFileData fs c with
    | .error e => .error e
    | .ok fd =>
      match buildFiles fs cs with
      | .error e => .error e
      | .ok fds => .ok (fd :: fds)

/-- `ResourceProvider.__init__` over an already-parsed configuration
document: build pages, build files (first missing path aborts the whole
construction), store realm and the credential pairs. -/
def loadCatalog (fs : FS) (cfg : Config) : Except ConfigErr ResourceProvider :=
  match buildFiles fs cfg.files with
  | .error e => .error e
  | .ok fds =>
    .ok ⟨cfg.pages.map mkPageData, fds,
         cfg.users.map (fun u => (u.name, u.passwd_sha)), cfg.realm⟩

/- ## Response writing (RequestHandler.__handle_GET, lines 77-87) -/

/-- Which I/O operations fail during one response. -/
structure NetEnv where
  readFails : Bool
  writeFails : Bool
deriving DecidableEq, Repr

/-- Observable state after running the response-writing statements. -/
structure ExecSt where
  raised : Bool
  closed : Bool
  wrote : List Nat
deriving DecidableEq, Repr

/-- The statements of `__handle_GET` after dispatch, in source order:
send status line and headers, `self.wfile.write(resource.stream.read())`,
`resource.stream.close()`. -/
inductive Stmt where
  | sendHeaders
  | writeBody
  | closeStream
deriving DecidableEq, Repr

/-- The statement list of `__handle_GET` (there is no try/finally around
it in the source). -/
def handlerScript : List Stmt := [Stmt.sendHeaders, Stmt.writeBody, Stmt.closeStream]

/-- Execute one statement with Python exception semantics: once an
exception has been raised, the remaining statements do not run. -/
def execStmt (env : NetEnv) (res : ResourceAccess) (st : ExecSt) (s : Stmt) : ExecSt :=
  if st.raised then st
  else
    match s with
    | Stmt.sendHeaders => st
    | Stmt.writeBody =>
      if env.readFails then { st with raised := true }
      else if env.writeFails then { st with raised := true }
      else { st with wrote := st.wrote ++ streamBytes res.stream }
    | Stmt.closeStream => { st with closed := true }

/-- Run the response-writing part of `__handle_GET` for a resolved
resource. -/
def handle_GET_write (env : NetEnv) (res : ResourceAccess) : ExecSt :=
  handlerScript.foldl (execStmt env res) ⟨false, false, []⟩

/- ## Per-request catalog operations, state-passing (for the read-only
invariant) -/

/-- The six per-request operations of the catalog. -/
inductive CatalogOp where
  | opIndex
  | opPage (url : Str)
  | opError (url : Str)
  | opFile (url : Str)
  | opAuth (name passwd_sha : Str)
  | opRealm
deriving DecidableEq, Repr

/-- Each Python method written state-passing: the returned provider
reflects every assignment the method makes to `self` — the six methods
make none, they only read `self.pages`, `self.files`, `self.users` and
`self.realm`. -/
def runOp (fs : FS) (rp : ResourceProvider) (op : CatalogOp) : ResourceProvider :=
  match op with
  | CatalogOp.opIndex => (get_index rp, rp).2
  | CatalogOp.opPage url => (get_page rp url, rp).2
  | CatalogOp.opError url => (get_error rp url, rp).2
  | CatalogOp.opFile url => (get_file rp fs url, rp).2
  | CatalogOp.opAuth n h => (is_user_authenticated rp n h, rp).2
  | CatalogOp.opRealm => (get_authentication_realm rp, rp).2

/- ## Definitions following the specification's wording -/

/-- Modelled from the spec: remove all whitespace characters
(§4.1 "remove all whitespace characters"). -/
def stripWs (s : Str) : Str := s.filter (fun c => !(isPySpace c))

/-- Modelled from the spec: lower-case a string. -/
def lowerStr (s : Str) : Str := s.map Char.toLower

/-- Modelled from the spec: the spec's URL derivation pipeline — remove all
whitespace, lower-case, SHA-1 over the UTF-8 bytes, lowercase hex output
(§4.1). -/
def deriveUrlSpec (name : Str) : Str :=
  bytesToHex (sha1 (utf8Encode (lowerStr (stripWs name))))

/-- Modelled from the spec: the path form rule 3 of §4.4 matches file
tokens against — the request path, leading slashes stripped, normalized as
a relative path. -/
def fileKeyForm (p : Str) : Str := normpath (p.dropWhile (fun c => c == '/'))

/-- The catalog well-formedness `loadCatalog` establishes: every entry's
url is derived from its name. -/
def WFProvider (rp : ResourceProvider) : Prop :=
  (∀ p ∈ rp.pages, p.url = deriveUrl p.name) ∧
  (∀ f ∈ rp.files, f.url = deriveUrl f.name)

deriving instance DecidableEq for Except

/- ## Concrete instances used by witnesses and counterexamples -/

/-- A filesystem with one five-byte file. -/
def fs1 : FS := [(str "doc.pdf", [10, 20, 30, 40, 50])]

/-- A configuration with one downloadable file. -/
def cfg1 : Config := ⟨[], [⟨str "Report", str "doc.pdf"⟩], str "intranet", []⟩

/-- The catalog `loadCatalog fs1 cfg1` produces. -/
def rp1 : ResourceProvider :=
  ⟨[], [⟨str "Report", deriveUrl (str "Report"), str "doc.pdf"⟩], [], str "intranet"⟩

/-- An empty catalog. -/
def rp0 : ResourceProvider := ⟨[], [], [], str "intranet"⟩

/-- A page entry for dispatch examples. -/
def cardPage : PageData :=
  ⟨str "Cardiology", deriveUrl (str "Cardiology"), str "A", str "12",
   [(str "08:00", str "12:00")]⟩

/-- A file entry for dispatch examples. -/
def reportFile : FileData := ⟨str "Report", deriveUrl (str "Report"), str "doc.pdf"⟩

/-- A catalog with one page and one file (dispatch examples). -/
def rp2 : ResourceProvider := ⟨[cardPage], [reportFile], [], str "intranet"⟩

/-- A catalog with one credential pair for user `alice`. -/
def rpW : ResourceProvider :=
  ⟨[], [], [(str "alice", bytesToHex (sha256 (utf8Encode (str "pw"))))], str "intranet"⟩

/-- A configuration referencing a file that does not exist. -/
def cfgW : Config := ⟨[], [⟨str "Missing", str "gone.pdf"⟩], str "intranet", []⟩

/- ## Supporting lemmas: characters and encodings -/

theorem toNat_ofNat_lt (m : Nat) (h : m < 55296) : (Char.ofNat m).toNat = m := by
  rw [Char.ofNat, dif_pos (Or.inl h : Char.isValidCharNat m)]
  rfl

theorem toLower_of_upper {c : Char} (h1 : 65 ≤ c.toNat) (h2 : c.toNat ≤ 90) :
    (Char.toLower c).toNat = c.toNat + 32 := by
  rw [Char.toLower, if_pos ⟨h1, h2⟩]
  exact toNat_ofNat_lt _ (by omega)

theorem toLower_of_not_upper {c : Char} (h : ¬(65 ≤ c.toNat ∧ c.toNat ≤ 90)) :
    Char.toLower c = c := by
  rw [Char.toLower, if_neg h]

/-- ASCII case mapping does not create or destroy whitespace. -/
theorem isPySpace_toLower (c : Char) : isPySpace (Char.toLower c) = isPySpace c := by
  by_cases h : 65 ≤ c.toNat ∧ c.toNat ≤ 90
  · have l := toLower_of_upper h.1 h.2
    have e1 : isPySpace (Char.toLower c) = false := by
      simp only [isPySpace, l, Bool.or_eq_false_iff, decide_eq_false_iff_not]
      omega
    have e2 : isPySpace c = false := by
      simp only [isPySpace, Bool.or_eq_false_iff, decide_eq_false_iff_not]
      omega
    rw [e1, e2]
  · rw [toLower_of_not_upper h]

/-- Joining the words of a whitespace split recovers exactly the
non-whitespace characters (auxiliary form). -/
theorem joinWords_pySplitWsAux (s acc : Str) :
    joinWords (pySplitWsAux s acc) =
      acc.reverse ++ s.filter (fun c => !(isPySpace c)) := by
  induction s generalizing acc with
  | nil =>
    by_cases h : acc = [] <;> simp [pySplitWsAux, joinWords, h]
  | cons c cs ih =>
    by_cases hsp : isPySpace c
    · by_cases hacc : acc = [] <;>
        simp [pySplitWsAux, hsp, hacc, joinWords, ih, List.filter_cons]
    · simp [pySplitWsAux, hsp, ih, List.filter_cons]

/-- `"".join(s.split())` removes exactly the whitespace characters. -/
theorem joinWords_pySplitWs (s : Str) :
    joinWords (pySplitWs s) = s.filter (fun c => !(isPySpace c)) := by
  simpa using joinWords_pySplitWsAux s []

/-- Whitespace removal commutes with ASCII lower-casing. -/
theorem filter_nonspace_map_toLower (s : Str) :
    (s.map Char.toLower).filter (fun c => !(isPySpace c)) =
      (s.filter (fun c => !(isPySpace c))).map Char.toLower := by
  induction s with
  | nil => rfl
  | cons c cs ih =>
    simp only [List.map_cons, List.filter_cons]
    cases hsp : isPySpace c <;> simp [isPySpace_toLower, hsp, ih]

/-- UTF-8 encoding distributes over concatenation. -/
theorem utf8Encode_append (a b : Str) :
    utf8Encode (a ++ b) = utf8Encode a ++ utf8Encode b := by
  induction a with
  | nil => rfl
  | cons c cs ih => simp [utf8Encode, ih]

theorem hexDigitChar_mem (n : Nat) : hexDigitChar n ∈ hexTable := by
  have h : n % 16 < hexTable.length := Nat.mod_lt _ (by decide)
  rw [hexDigitChar, List.getD_eq_getElem _ _ h]
  exact List.getElem_mem h

theorem mem_bytesToHex {c : Char} {l : List Nat} (h : c ∈ bytesToHex l) :
    c ∈ hexTable := by
  induction l with
  | nil => cases h
  | cons b bs ih =>
    simp only [bytesToHex, byteToHexPair, List.cons_append, List.mem_cons,
      List.nil_append] at h
    rcases h with h | h | h
    · exact h ▸ hexDigitChar_mem _
    · exact h ▸ hexDigitChar_mem _
    · exact ih h

theorem length_bytesToHex (l : List Nat) : (bytesToHex l).length = 2 * l.length := by
  induction l with
  | nil => rfl
  | cons b bs ih => simp [bytesToHex, byteToHexPair, ih]; omega

/-- All sixteen hexadecimal digit characters are fixed by lower-casing. -/
theorem toLower_fixed_hexTable : ∀ c ∈ hexTable, Char.toLower c = c := by decide

/-- Hex digests are lower-case already. -/
theorem map_toLower_bytesToHex (l : List Nat) :
    (bytesToHex l).map Char.toLower = bytesToHex l := by
  have h : ∀ c ∈ bytesToHex l, Char.toLower c = c :=
    fun c hc => toLower_fixed_hexTable c (mem_bytesToHex hc)
  simpa using List.map_congr_left h

/-- A SHA-1 digest is 20 bytes long. -/
theorem length_sha1 (msg : List Nat) : (sha1 msg).length = 20 := by
  unfold sha1
  generalize (toChunks (shaPad msg)).foldl sha1Compress
    (1732584193, 4023233417, 2562383102, 271733878, 3285377520) = x
  obtain ⟨a, b, c, d, e⟩ := x
  simp [wordBytes]

/-- A derived URL token is 40 characters long. -/
theorem length_deriveUrl (name : Str) : (deriveUrl name).length = 40 := by
  unfold deriveUrl
  rw [length_bytesToHex, length_sha1]

/-- Every character of a derived URL token is a lowercase hex digit. -/
theorem mem_deriveUrl_hex {c : Char} {name : Str} (h : c ∈ deriveUrl name) :
    c ∈ hexTable := mem_bytesToHex h

/-- A derived URL token is fixed by lower-casing. -/
theorem map_toLower_deriveUrl (name : Str) :
    (deriveUrl name).map Char.toLower = deriveUrl name := map_toLower_bytesToHex _

/- ## Claim theorems -/

/-- C5: `deriveUrl` is a pure, deterministic function of the non-empty
display name: it equals the spec pipeline (remove all whitespace, convert
to lower case, SHA-1 — a 160-bit hash — over the UTF-8 bytes), its output
is 40 lowercase hexadecimal characters, and repeated calls with the same
name yield the same token. -/
theorem deriveUrl_follows_spec (name : Str) (_hne : name ≠ []) :
    deriveUrl name = deriveUrlSpec name ∧
    (deriveUrl name).length = 40 ∧
    (∀ c ∈ deriveUrl name, c ∈ hexTable) ∧
    (∀ other : Str, other = name → deriveUrl other = deriveUrl name) := by
  refine ⟨?_, length_deriveUrl name, fun c hc => mem_deriveUrl_hex hc,
    fun o ho => by rw [ho]⟩
  unfold deriveUrl deriveUrlSpec stripWs lowerStr
  rw [joinWords_pySplitWs, filter_nonspace_map_toLower]

set_option maxRecDepth 100000 in
/-- Witness for C5 at the name `"Cardiology"`. -/
theorem deriveUrl_follows_spec_witness :
    str "Cardiology" ≠ [] ∧
    deriveUrl (str "Cardiology") = deriveUrlSpec (str "Cardiology") ∧
    (deriveUrl (str "Cardiology")).length = 40 :=
  ⟨by decide, (deriveUrl_follows_spec (str "Cardiology") (by decide)).1,
   (deriveUrl_follows_spec (str "Cardiology") (by decide)).2.1⟩

/-- Every per-request catalog operation, written state-passing, returns the
provider unchanged. -/
theorem runOp_eq (fs : FS) (rp : ResourceProvider) (op : CatalogOp) :
    runOp fs rp op = rp := by
  cases op <;> rfl

/-- C9: after any sequence of the six per-request catalog operations, the
pages, files, credential table and realm equal their values at
construction. -/
theorem catalog_ops_read_only (fs : FS) (ops : List CatalogOp) (rp : ResourceProvider) :
    (ops.foldl (runOp fs) rp).pages = rp.pages ∧
    (ops.foldl (runOp fs) rp).files = rp.files ∧
    (ops.foldl (runOp fs) rp).users = rp.users ∧
    (ops.foldl (runOp fs) rp).realm = rp.realm := by
  have h : ops.foldl (runOp fs) rp = rp := by
    induction ops with
    | nil => rfl
    | cons op ops ih => rw [List.foldl_cons, runOp_eq]; exact ih
  rw [h]
  exact ⟨rfl, rfl, rfl, rfl⟩

/-- C2 counterexample: when writing the response body raises, the handler
raises without ever closing the stream — the claim that the stream is
released on every exit path fails on this input. -/
theorem stream_close_skipped_on_error :
    (handle_GET_write ⟨false, true⟩ (get_index rp0)).raised = true ∧
    (handle_GET_write ⟨false, true⟩ (get_index rp0)).closed = false ∧
    (handle_GET_write ⟨true, false⟩ (get_index rp0)).raised = true ∧
    (handle_GET_write ⟨true, false⟩ (get_index rp0)).closed = false :=
  ⟨rfl, rfl, rfl, rfl⟩

/-- C2 amended: the stream is closed exactly on the normal exit path — when
neither reading the stream nor writing the response body raises.  On an
error during read or write the exception propagates past the close call and
the stream is not released by the handler. -/
theorem stream_closed_iff_no_error (env : NetEnv) (res : ResourceAccess) :
    (handle_GET_write env res).closed = (!env.readFails && !env.writeFails) ∧
    ((handle_GET_write env res).raised = false ↔
      (handle_GET_write env res).closed = true) := by
  obtain ⟨r, w⟩ := env
  cases r <;> cases w <;>
    simp [handle_GET_write, handlerScript, execStmt]

set_option maxRecDepth 1000000 in
/-- C1 (code bug): dispatching GET on `'/' + url` of the catalog's file
entry does return status 200 with the open file stream, but the resource's
length field — emitted as the Content-Length header — is the whole
`os.stat` result, never the integer file size (5 bytes here):
`from_file` stores `os.stat(path)` instead of `os.stat(path).st_size`. -/
theorem file_length_is_stat_result :
    loadCatalog fs1 cfg1 = .ok rp1 ∧
    dispatch rp1 fs1 ('/' :: deriveUrl (str "Report")) =
      .ok (200, ⟨str "Report", PyLen.ofStat ⟨5⟩,
                 StreamSrc.file (str "doc.pdf") [10, 20, 30, 40, 50]⟩,
           str "application/octet-stream", str "attachment") ∧
    (∀ bs, lookupFS fs1 (str "doc.pdf") = some bs → bs.length = 5) ∧
    PyLen.ofStat ⟨5⟩ ≠ PyLen.ofNat 5 := by
  refine ⟨rfl, by decide, by decide, by decide⟩

set_option maxRecDepth 1000000 in
/-- C4 (code bug): the not-found page for `/città` — generated HTML with a
non-ASCII character — gets a `ResourceAccess` whose stream holds exactly
the UTF-8 encoding of the HTML string, but whose length field is
`len(html)` (code points), which differs from the UTF-8 byte length. -/
theorem html_length_counts_codepoints :
    dispatch rp0 [] (str "/città") =
      .ok (404, get_error rp0 (str "/città"), str "text/html", str "inline") ∧
    (get_error rp0 (str "/città")).stream =
      StreamSrc.mem (utf8Encode (error_html (str "/città"))) ∧
    (get_error rp0 (str "/città")).length ≠
      PyLen.ofNat (streamBytes (get_error rp0 (str "/città")).stream).length := by
  refine ⟨by decide, rfl, by decide⟩

/- ## Supporting lemmas: normpath -/

theorem splitOnSlash_ne_nil (s : Str) : splitOnSlash s ≠ [] := by
  cases s with
  | nil => simp [splitOnSlash]
  | cons c cs =>
    by_cases h : c = '/'
    · simp [splitOnSlash, h]
    · simp only [splitOnSlash, if_neg h]
      cases hs : splitOnSlash cs <;> simp

theorem splitOnSlash_slash (x : Str) : splitOnSlash ('/' :: x) = [] :: splitOnSlash x := by
  simp [splitOnSlash]

theorem splitOnSlash_dot_slash (x : Str) :
    splitOnSlash ('.' :: '/' :: x) = ['.'] :: splitOnSlash x := by
  simp [splitOnSlash]

theorem splitOnSlash_no_slash (w : Str) (h : '/' ∉ w) : splitOnSlash w = [w] := by
  induction w with
  | nil => rfl
  | cons c cs ih =>
    have hc : c ≠ '/' := fun e => h (e ▸ List.mem_cons_self c cs)
    have hcs := ih (fun m => h (List.mem_cons_of_mem c m))
    simp [splitOnSlash, if_neg hc, hcs]

theorem normCompsStep_nil (isl : Nat) (acc : List Str) :
    normCompsStep isl acc [] = acc := by
  simp [normCompsStep]

theorem normCompsStep_dot (isl : Nat) (acc : List Str) :
    normCompsStep isl acc ['.'] = acc := by
  simp [normCompsStep]

theorem initialSlashes_dot (x : Str) : initialSlashes ('.' :: x) = 0 := by
  simp [initialSlashes, startsWithB, str]

theorem initialSlashes_cons_ne {c : Char} (x : Str) (h : c ≠ '/') :
    initialSlashes (c :: x) = 0 := by
  have hb : (('/' : Char) == c) = false := by
    simpa using fun e => h e.symm
  simp [initialSlashes, startsWithB, str, hb]

theorem normpathCore_cons_dot (isl : Nat) (comps : List Str) :
    normpathCore isl (['.'] :: comps) = normpathCore isl comps := by
  simp only [normpathCore, List.foldl_cons, normCompsStep_dot]

theorem normpathCore_cons_nil (isl : Nat) (comps : List Str) :
    normpathCore isl ([] :: comps) = normpathCore isl comps := by
  simp only [normpathCore, List.foldl_cons, normCompsStep_nil]

/-- Collapsing a duplicated slash right after the `./` marker does not
change the normalized path. -/
theorem normpath_dot_slash_slash (u : Str) :
    normpath ('.' :: '/' :: '/' :: u) = normpath ('.' :: '/' :: u) := by
  simp only [normpath, reduceCtorEq, if_false, initialSlashes_dot, reduceIte]
  rw [splitOnSlash_dot_slash, splitOnSlash_dot_slash, splitOnSlash_slash]
  rw [normpathCore_cons_dot, normpathCore_cons_dot, normpathCore_cons_nil]

/-- A `./` marker before a non-slash head is dropped by normalization. -/
theorem normpath_dot_slash_cons {c : Char} (u : Str) (h : c ≠ '/') :
    normpath ('.' :: '/' :: c :: u) = normpath (c :: u) := by
  simp only [normpath, reduceCtorEq, if_false, initialSlashes_dot,
    initialSlashes_cons_ne u h, reduceIte]
  rw [splitOnSlash_dot_slash, normpathCore_cons_dot]

/-- `normpath ("./" + t)` equals `normpath` of `t` with its leading slashes
stripped: prefixing `./` and normalizing is path normalization relative to
the current directory. -/
theorem normpath_dot_slash (t : Str) :
    normpath ('.' :: '/' :: t) = normpath (t.dropWhile (fun c => c == '/')) := by
  induction t with
  | nil => decide
  | cons c cs ih =>
    by_cases h : c = '/'
    · subst h
      rw [normpath_dot_slash_slash, ih]
      simp [List.dropWhile_cons]
    · rw [normpath_dot_slash_cons cs h]
      simp [List.dropWhile_cons, h]

/-- The code's file-lookup key `normpath ("." + path)` coincides with the
spec's "normalized, leading-slash-stripped" request-path form. -/
theorem normpath_dot_eq_fileKeyForm (t : Str) :
    normpath ('.' :: '/' :: t) = fileKeyForm ('/' :: t) := by
  rw [fileKeyForm]
  simp only [List.dropWhile_cons, beq_self_eq_true, if_true]
  exact normpath_dot_slash t

/-- A nonempty path with no slash and no dot is already normal. -/
theorem normpath_no_slash {w : Str} (hne : w ≠ []) (hs : '/' ∉ w) (hd : '.' ∉ w) :
    normpath w = w := by
  obtain ⟨a, w', rfl⟩ : ∃ a w', w = a :: w' := by
    cases w with
    | nil => exact absurd rfl hne
    | cons a w' => exact ⟨a, w', rfl⟩
  have ha : a ≠ '/' := fun e => hs (e ▸ List.mem_cons_self a w')
  have hsplit : splitOnSlash (a :: w') = [a :: w'] := splitOnSlash_no_slash _ hs
  have hw1 : (a :: w') ≠ ([] : Str) := by simp
  have hw2 : (a :: w') ≠ ['.'] := by
    intro e
    exact hd (e ▸ List.mem_cons_self '.' [])
  have hstep : normCompsStep 0 [] (a :: w') = [a :: w'] := by
    rw [normCompsStep, if_neg (by push_neg; exact ⟨hw1, hw2⟩),
      if_pos (Or.inr (Or.inl ⟨rfl, rfl⟩))]
    rfl
  simp only [normpath, normpathCore, initialSlashes_cons_ne w' ha, hsplit,
    reduceCtorEq, if_false, reduceIte, List.foldl_cons, List.foldl_nil, hstep]
  simp [joinSlash]

/- ## Supporting lemmas: dispatch -/

theorem map_toLower_slash_cons (t : Str) :
    ('/' :: t).map Char.toLower = '/' :: t.map Char.toLower := by
  have h : Char.toLower '/' = '/' := by decide
  simp [h]

theorem dispatch_of_html_some {rp : ResourceProvider} {fs : FS} {p : Str}
    {r : DispatchResult} (h : try_get_html rp p = some r) :
    dispatch rp fs p = .ok r := by
  unfold dispatch
  rw [h]

theorem dispatch_of_file_some {rp : ResourceProvider} {fs : FS} {p : Str}
    {r : DispatchResult} (h1 : try_get_html rp p = none)
    (h2 : try_get_file rp fs p = .ok (some r)) :
    dispatch rp fs p = .ok r := by
  unfold dispatch
  rw [h1, h2]

theorem dispatch_of_none {rp : ResourceProvider} {fs : FS} {p : Str}
    (h1 : try_get_html rp p = none) (h2 : try_get_file rp fs p = .ok none) :
    dispatch rp fs p = .ok (get_not_found rp p) := by
  unfold dispatch
  rw [h1, h2]

theorem try_get_html_index {rp : ResourceProvider} {p : Str}
    (h : path_is_index (p.map Char.toLower) = true) :
    try_get_html rp p = some (200, get_index rp, str "text/html", str "inline") := by
  unfold try_get_html
  simp [h]

theorem try_get_html_page {rp : ResourceProvider} {p : Str} {pg : PageData}
    (h1 : path_is_index (p.map Char.toLower) = false)
    (h2 : rp.pages.find? (fun q => q.url == (p.map Char.toLower).drop 1) = some pg) :
    try_get_html rp p = some (200, page_resource pg, str "text/html", str "inline") := by
  unfold try_get_html get_page
  rw [List.drop_one] at h2
  simp [h1, h2]

theorem try_get_html_none {rp : ResourceProvider} {p : Str}
    (h1 : path_is_index (p.map Char.toLower) = false)
    (h2 : rp.pages.find? (fun q => q.url == (p.map Char.toLower).drop 1) = none) :
    try_get_html rp p = none := by
  unfold try_get_html get_page
  rw [List.drop_one] at h2
  simp [h1, h2]

theorem try_get_file_none {rp : ResourceProvider} {fs : FS} {p : Str}
    (h : rp.files.find? (fun f => f.url == normpath ('.' :: p)) = none) :
    try_get_file rp fs p = .ok none := by
  unfold try_get_file get_file
  rw [h]
  rfl

theorem try_get_file_some {rp : ResourceProvider} {fs : FS} {p : Str}
    {fd : FileData} {bs : List Nat}
    (h : rp.files.find? (fun f => f.url == normpath ('.' :: p)) = some fd)
    (hfs : lookupFS fs fd.path = some bs) :
    try_get_file rp fs p =
      .ok (some (200, ⟨fd.name, PyLen.ofStat ⟨bs.length⟩, StreamSrc.file fd.path bs⟩,
                 str "application/octet-stream", str "attachment")) := by
  unfold try_get_file get_file ResourceAccess.from_file
  rw [h]
  simp [hfs, Except.map]

/-- C3: `dispatch` applies the precedence rules in order, first match wins:
(1) a path whose lower-cased form is `/`, `/index.html` or `/index.htm`
yields the rendered index inline as `text/html` with status 200;
(2) otherwise a path whose lower-cased, leading-slash-stripped form equals
a page entry's URL token yields that page rendered inline as `text/html`
with status 200; (3) otherwise a path whose normalized,
leading-slash-stripped form equals a file entry's URL token yields the open
file stream as an `application/octet-stream` attachment with status 200;
(4) otherwise status 404 with the rendered not-found page inline as
`text/html`.  `/INDEX.HTML`, `/Index.Html` and `/index.html` resolve
identically. -/
theorem dispatch_precedence (rp : ResourceProvider) (fs : FS) :
    (∀ p : Str,
      lowerStr p = str "/" ∨ lowerStr p = str "/index.html" ∨
        lowerStr p = str "/index.htm" →
      dispatch rp fs p = .ok (200, get_index rp, str "text/html", str "inline")) ∧
    (∀ (t : Str) (pg : PageData),
      path_is_index (lowerStr ('/' :: t)) = false →
      rp.pages.find? (fun q => q.url == lowerStr t) = some pg →
      dispatch rp fs ('/' :: t) =
        .ok (200, page_resource pg, str "text/html", str "inline")) ∧
    (∀ (t : Str) (fd : FileData) (bs : List Nat),
      path_is_index (lowerStr ('/' :: t)) = false →
      rp.pages.find? (fun q => q.url == lowerStr t) = none →
      rp.files.find? (fun f => f.url == fileKeyForm ('/' :: t)) = some fd →
      lookupFS fs fd.path = some bs →
      dispatch rp fs ('/' :: t) =
        .ok (200, ⟨fd.name, PyLen.ofStat ⟨bs.length⟩, StreamSrc.file fd.path bs⟩,
             str "application/octet-stream", str "attachment")) ∧
    (∀ t : Str,
      path_is_index (lowerStr ('/' :: t)) = false →
      rp.pages.find? (fun q => q.url == lowerStr t) = none →
      rp.files.find? (fun f => f.url == fileKeyForm ('/' :: t)) = none →
      dispatch rp fs ('/' :: t) =
        .ok (404, get_error rp ('/' :: t), str "text/html", str "inline")) ∧
    dispatch rp fs (str "/INDEX.HTML") = dispatch rp fs (str "/index.html") ∧
    dispatch rp fs (str "/Index.Html") = dispatch rp fs (str "/index.html") := by
  have edrop : ∀ t : Str, (('/' :: t).map Char.toLower).drop 1 = lowerStr t := by
    intro t
    rw [map_toLower_slash_cons]
    rfl
  refine ⟨?_, ?_, ?_, ?_, ?_, ?_⟩
  · intro p hp
    apply dispatch_of_html_some
    apply try_get_html_index
    rcases hp with h | h | h <;>
      · show path_is_index (lowerStr p) = true
        rw [h]
        decide
  · intro t pg h1 h2
    apply dispatch_of_html_some
    exact try_get_html_page h1 (by rw [edrop t]; exact h2)
  · intro t fd bs h1 h2 h3 h4
    rw [← normpath_dot_eq_fileKeyForm] at h3
    exact dispatch_of_file_some
      (try_get_html_none h1 (by rw [edrop t]; exact h2))
      (try_get_file_some h3 h4)
  · intro t h1 h2 h3
    rw [← normpath_dot_eq_fileKeyForm] at h3
    exact dispatch_of_none
      (try_get_html_none h1 (by rw [edrop t]; exact h2))
      (try_get_file_none h3)
  · rw [dispatch_of_html_some (@try_get_html_index rp (str "/INDEX.HTML") (by decide)),
      dispatch_of_html_some (@try_get_html_index rp (str "/index.html") (by decide))]
  · rw [dispatch_of_html_some (@try_get_html_index rp (str "/Index.Html") (by decide)),
      dispatch_of_html_some (@try_get_html_index rp (str "/index.html") (by decide))]

set_option maxRecDepth 2000000 in
/-- Witness for C3 on a concrete catalog: one request through each rule. -/
theorem dispatch_precedence_witness :
    dispatch rp2 fs1 (str "/index.htm") =
      .ok (200, get_index rp2, str "text/html", str "inline") ∧
    dispatch rp2 fs1 ('/' :: deriveUrl (str "Cardiology")) =
      .ok (200, page_resource cardPage, str "text/html", str "inline") ∧
    dispatch rp2 fs1 ('/' :: deriveUrl (str "Report")) =
      .ok (200, ⟨str "Report", PyLen.ofStat ⟨5⟩,
                 StreamSrc.file (str "doc.pdf") [10, 20, 30, 40, 50]⟩,
           str "application/octet-stream", str "attachment") ∧
    dispatch rp2 fs1 ('/' :: str "nope") =
      .ok (404, get_error rp2 ('/' :: str "nope"), str "text/html", str "inline") := by
  refine ⟨(dispatch_precedence rp2 fs1).1 (str "/index.htm") (Or.inr (Or.inr (by decide))),
    (dispatch_precedence rp2 fs1).2.1 (deriveUrl (str "Cardiology")) cardPage
      (by decide) (by decide),
    (dispatch_precedence rp2 fs1).2.2.1 (deriveUrl (str "Report")) reportFile
      [10, 20, 30, 40, 50] (by decide) (by decide) (by decide) (by decide),
    (dispatch_precedence rp2 fs1).2.2.2.1 (str "nope") (by decide) (by decide) (by decide)⟩

theorem utf8Encode_cons (c : Char) (s : Str) :
    utf8Encode (c :: s) = utf8Char c ++ utf8Encode s := rfl

theorem drop_map_toLower_slash (t : Str) :
    (('/' :: t).map Char.toLower).drop 1 = lowerStr t := by
  rw [map_toLower_slash_cons]
  rfl

/-- C8: a request path matching neither the index rule, nor any page
entry's URL token, nor any file entry's URL token dispatches to status 404,
`text/html`, inline, and the page's body bytes contain the UTF-8 encoding
of the requested path verbatim. -/
theorem not_found_contains_path (rp : ResourceProvider) (fs : FS) (t : Str)
    (h1 : path_is_index (lowerStr ('/' :: t)) = false)
    (h2 : rp.pages.find? (fun q => q.url == lowerStr t) = none)
    (h3 : rp.files.find? (fun f => f.url == fileKeyForm ('/' :: t)) = none) :
    dispatch rp fs ('/' :: t) =
      .ok (404, get_error rp ('/' :: t), str "text/html", str "inline") ∧
    ∃ pre suf, streamBytes (get_error rp ('/' :: t)).stream =
      pre ++ utf8Encode ('/' :: t) ++ suf := by
  constructor
  · rw [← normpath_dot_eq_fileKeyForm] at h3
    rw [dispatch_of_none
      (try_get_html_none h1 (by rw [drop_map_toLower_slash t]; exact h2))
      (try_get_file_none h3)]
    rfl
  · refine ⟨utf8Encode (str "<html><head><title>") ++ utf8Char '\'',
      utf8Encode (str "' non trovato") ++
        utf8Encode (str "</title><style type=\"text/css\">") ++
        utf8Encode style_css ++
        utf8Encode (str "</style></head><body><h1>") ++
        utf8Char '\'' ++ utf8Encode ('/' :: t) ++
        utf8Encode (str "' non trovato") ++
        utf8Encode (str "</h1>") ++ utf8Encode draw_footer, ?_⟩
    simp [get_error, ResourceAccess.from_html, streamBytes, error_html,
      draw_header, utf8Encode_append, utf8Encode_cons, List.append_assoc]

set_option maxRecDepth 1000000 in
/-- Witness for C8: requesting `/does-not-exist` on a concrete catalog. -/
theorem not_found_contains_path_witness :
    dispatch rp2 fs1 ('/' :: str "does-not-exist") =
      .ok (404, get_error rp2 ('/' :: str "does-not-exist"),
           str "text/html", str "inline") ∧
    ∃ pre suf, streamBytes (get_error rp2 ('/' :: str "does-not-exist")).stream =
      pre ++ utf8Encode ('/' :: str "does-not-exist") ++ suf :=
  not_found_contains_path rp2 fs1 (str "does-not-exist")
    (by decide) (by decide) (by decide)

/-- Lower-casing fixes any string of hexadecimal digit characters. -/
theorem lowerStr_fixed_of_hex {l : Str} (h : ∀ c ∈ l, c ∈ hexTable) :
    lowerStr l = l := by
  unfold lowerStr
  have he : ∀ c ∈ l, Char.toLower c = c :=
    fun c hc => toLower_fixed_hexTable c (h c hc)
  simpa using List.map_congr_left he

/-- C10: file-token matching is case-sensitive while page-token matching is
not: for a file entry of a well-formed catalog, a request path equal to
`'/' + url` except for the case of at least one letter — and matching no
page token — does not match the file rule and dispatches to 404. -/
theorem file_token_case_sensitive (rp : ResourceProvider) (fs : FS)
    (fd : FileData) (w : Str)
    (hwf : ∀ f ∈ rp.files, f.url = deriveUrl f.name)
    (hmem : fd ∈ rp.files)
    (hlow : lowerStr w = fd.url) (hne : w ≠ fd.url)
    (hpg : ∀ pg ∈ rp.pages, pg.url ≠ fd.url) :
    dispatch rp fs ('/' :: w) =
      .ok (404, get_error rp ('/' :: w), str "text/html", str "inline") := by
  have hurl : fd.url = deriveUrl fd.name := hwf fd hmem
  have hex40 : fd.url.length = 40 := by rw [hurl]; exact length_deriveUrl _
  have hwchars : ∀ c ∈ w, Char.toLower c ∈ hexTable := by
    intro c hc
    have : Char.toLower c ∈ lowerStr w := List.mem_map_of_mem Char.toLower hc
    rw [hlow, hurl] at this
    exact mem_deriveUrl_hex this
  have hslash : '/' ∉ w := by
    intro hc
    have := hwchars '/' hc
    rw [show Char.toLower '/' = '/' from by decide] at this
    exact absurd this (by decide)
  have hdot : '.' ∉ w := by
    intro hc
    have := hwchars '.' hc
    rw [show Char.toLower '.' = '.' from by decide] at this
    exact absurd this (by decide)
  have hwlen : w.length = 40 := by
    have hl := congrArg List.length hlow
    rw [show (lowerStr w).length = w.length from List.length_map w Char.toLower] at hl
    rw [hl, hex40]
  have hwne : w ≠ [] := by
    intro e
    rw [e] at hwlen
    cases hwlen
  have hlp : lowerStr ('/' :: w) = '/' :: fd.url := by
    have : lowerStr ('/' :: w) = '/' :: lowerStr w := map_toLower_slash_cons w
    rw [this, hlow]
  have h1 : path_is_index (lowerStr ('/' :: w)) = false := by
    rw [hlp]
    have l1 : ('/' :: fd.url).length = 41 := by simp [hex40]
    simp only [path_is_index, Bool.or_eq_false_iff, beq_eq_false_iff_ne]
    refine ⟨⟨?_, ?_⟩, ?_⟩ <;> intro e <;> exact absurd (e ▸ l1) (by decide)
  have h2 : rp.pages.find? (fun q => q.url == lowerStr w) = none := by
    refine List.find?_eq_none.mpr ?_
    intro q hq
    simp only [beq_iff_eq, hlow]
    exact hpg q hq
  have hdw : w.dropWhile (fun c => c == '/') = w := by
    obtain ⟨a, w', rfl⟩ : ∃ a w', w = a :: w' := by
      cases w with
      | nil => exact absurd rfl hwne
      | cons a w' => exact ⟨a, w', rfl⟩
    have ha : a ≠ '/' := fun e => hslash (e ▸ List.mem_cons_self a w')
    simp [List.dropWhile_cons, ha]
  have hnorm : normpath ('.' :: '/' :: w) = w := by
    rw [normpath_dot_slash, hdw]
    exact normpath_no_slash hwne hslash hdot
  have h3 : rp.files.find? (fun f => f.url == normpath ('.' :: '/' :: w)) = none := by
    refine List.find?_eq_none.mpr ?_
    intro f hf
    simp only [beq_iff_eq, hnorm]
    intro e
    have hfhex : ∀ c ∈ f.url, c ∈ hexTable := by
      rw [hwf f hf]
      intro c hc
      exact mem_deriveUrl_hex hc
    have : lowerStr w = w := by
      rw [e] at hfhex
      exact lowerStr_fixed_of_hex hfhex
    rw [this] at hlow
    exact hne hlow
  rw [dispatch_of_none
    (try_get_html_none h1 (by rw [drop_map_toLower_slash w]; exact h2))
    (try_get_file_none h3)]
  rfl

set_option maxRecDepth 2000000 in
/-- Witness for C10: the file token of "Report"
(`a27297bde9732f2e73fbc06db2611764e3ad9855`) with its first letter
upper-cased matches nothing and dispatches to 404. -/
theorem file_token_case_sensitive_witness :
    lowerStr (str "A27297bde9732f2e73fbc06db2611764e3ad9855") = reportFile.url ∧
    str "A27297bde9732f2e73fbc06db2611764e3ad9855" ≠ reportFile.url ∧
    dispatch rp2 fs1 ('/' :: str "A27297bde9732f2e73fbc06db2611764e3ad9855") =
      .ok (404, get_error rp2 ('/' :: str "A27297bde9732f2e73fbc06db2611764e3ad9855"),
           str "text/html", str "inline") :=
  ⟨by decide, by decide,
   file_token_case_sensitive rp2 fs1 reportFile
     (str "A27297bde9732f2e73fbc06db2611764e3ad9855")
     (by decide) (by decide) (by decide) (by decide) (by decide)⟩

/-- C6: `authenticate(u, pw)` — the SHA-256 hashing step of
`__client_is_authenticated` composed with `is_user_authenticated` — returns
true iff `u` is present in the credential table and the stored hash equals
the SHA-256 hex digest of `pw`; any username absent from the table is
rejected whatever the password. -/
theorem authenticate_iff (rp : ResourceProvider) (u pw : Str) :
    (authenticate rp u pw = true ↔
      ∃ h, dictGet? rp.users u = some h ∧
        h = bytesToHex (sha256 (utf8Encode pw))) ∧
    (dictGet? rp.users u = none → ∀ pw2 : Str, authenticate rp u pw2 = false) := by
  constructor
  · unfold authenticate is_user_authenticated
    cases hg : dictGet? rp.users u with
    | none => simp
    | some h => simp [beq_iff_eq]
  · intro hg pw2
    unfold authenticate is_user_authenticated
    rw [hg]

set_option maxRecDepth 1000000 in
/-- Witness for C6: user `alice` with stored hash `sha256("pw")`. -/
theorem authenticate_iff_witness :
    authenticate rpW (str "alice") (str "pw") = true ∧
    authenticate rpW (str "alice") (str "wrong") = false ∧
    authenticate rpW (str "bob") (str "anything") = false := by
  refine ⟨?_, ?_, (authenticate_iff rpW (str "bob") (str "x")).2 (by decide) (str "anything")⟩
  · exact (authenticate_iff rpW (str "alice") (str "pw")).1.mpr
      ⟨bytesToHex (sha256 (utf8Encode (str "pw"))), by decide, rfl⟩
  · cases hA : authenticate rpW (str "alice") (str "wrong") with
    | false => rfl
    | true =>
      obtain ⟨hh, hsome, heq⟩ :=
        (authenticate_iff rpW (str "alice") (str "wrong")).1.mp hA
      rw [show dictGet? rpW.users (str "alice") =
          some (bytesToHex (sha256 (utf8Encode (str "pw")))) from by decide] at hsome
      injection hsome with hinj
      rw [← hinj] at heq
      exact absurd heq (by decide)

/-- The file list comprehension raises on the first missing path. -/
theorem buildFiles_error_of_missing {fs : FS} {cs : List FileCfg}
    (h : ∃ c ∈ cs, lookupFS fs c.path = none) :
    ∃ p, buildFiles fs cs = .error (ConfigErr.missingFile p) := by
  induction cs with
  | nil =>
    rcases h with ⟨c, hc, _⟩
    cases hc
  | cons c cs ih =>
    cases hl : lookupFS fs c.path with
    | none => exact ⟨c.path, by simp [buildFiles, mkFileData, hl]⟩
    | some bs =>
      rcases h with ⟨c2, hc2, hn⟩
      rcases List.mem_cons.mp hc2 with rfl | hmem
      · rw [hl] at hn
        cases hn
      · obtain ⟨p, hp⟩ := ih ⟨c2, hmem, hn⟩
        exact ⟨p, by simp [buildFiles, mkFileData, hl, hp]⟩

/-- C7: if any configured file path does not exist at load time, catalog
construction fails with a missing-file configuration error, and no catalog
value is produced at all. -/
theorem loadCatalog_missing_file_fails (fs : FS) (cfg : Config)
    (h : ∃ c ∈ cfg.files, lookupFS fs c.path = none) :
    ∃ p, loadCatalog fs cfg = .error (ConfigErr.missingFile p) ∧
      ∀ rp : ResourceProvider, loadCatalog fs cfg ≠ .ok rp := by
  obtain ⟨p, hp⟩ := buildFiles_error_of_missing h
  refine ⟨p, ?_, ?_⟩
  · unfold loadCatalog
    rw [hp]
  · intro rp hok
    unfold loadCatalog at hok
    rw [hp] at hok
    cases hok

/-- Witness for C7: a configuration referencing `gone.pdf` on an empty
filesystem fails to load. -/
theorem loadCatalog_missing_file_fails_witness :
    (∃ c ∈ cfgW.files, lookupFS [] c.path = none) ∧
    ∃ p, loadCatalog [] cfgW = .error (ConfigErr.missingFile p) ∧
      ∀ rp : ResourceProvider, loadCatalog [] cfgW ≠ .ok rp :=
  ⟨by decide, loadCatalog_missing_file_fails [] cfgW (by decide)⟩
